import Mathlib

/-! Node kinds, the kind formatter and the sentinel nodes of `Compiler`.

A shallow embedding of `src/compiler/node/Node.cpp` (with the `print` wrapper of
`src/Common.hpp`), followed by the properties of the node representation.

Conventions of the embedding:

* an output stream is the text it has received so far; inserting a character
  string appends it (the stream is in its default formatting state: good, width 0);
* a member function that may touch `this` and `std::cout` takes both and returns both;
* evaluating a C++ expression ends in one of three ways, see `Outcome`.
-/

set_option autoImplicit false

namespace Compiler

/-! ## Data model -/

/-- Modelled from the spec: the enumeration `NodeType` is declared in `Node.hpp`, which is
not part of the available source. Its nine enumerators, in declaration order, are taken
from the data model of the spec; the order agrees with the `NAMES` table of `Node.cpp`. -/
inductive NodeType where
  | Method
  | Package
  | Import
  | Type
  | Local
  | SingleValue
  | Operation
  | Error
  | Finish
  deriving DecidableEq, Repr

/-- Every enumerator of `NodeType`, in declaration order. -/
def NodeType.all : List NodeType :=
  [.Method, .Package, .Import, .Type, .Local, .SingleValue, .Operation, .Error, .Finish]

/-- The value of `static_cast<int>(type)` for an enumerator: its ordinal position. -/
def NodeType.toInt : NodeType → Int
  | .Method => 0
  | .Package => 1
  | .Import => 2
  | .Type => 3
  | .Local => 4
  | .SingleValue => 5
  | .Operation => 6
  | .Error => 7
  | .Finish => 8

/-- Modelled from the spec: `OutputStream` is a type alias declared in `Node.hpp`; the sink
it names only has to accept a string and store it, so a stream is the text written so far. -/
abbrev OutputStream := String

/-- The three ways the evaluation of a C++ expression can end: normal completion with a
value, a raised (defined, observable) error, or undefined behaviour. -/
inductive Outcome (α : Type) where
  | ok (value : α)
  | raised (what : String)
  | undefined
  deriving DecidableEq, Repr

/-- The built-in subscript `table[i]` on an array with a signed index: it yields the
element when `0 ≤ i < size`; any other index reads outside the array, which is undefined
behaviour (the built-in subscript performs no check and raises nothing). -/
def subscript {α : Type} (table : List α) (i : Int) : Outcome α :=
  if 0 ≤ i then
    match table.get? i.toNat with
    | some x => .ok x
    | none => .undefined
  else .undefined

/-! ## The kind formatter -/

/-- The function-local table `NAMES` of `operator<<`. -/
def NAMES : List String :=
  [ "Method",
    "Package",
    "Import",
    "Type",
    "Local",
    "SingleValue",
    "Operation",
    "Error",
    "Finish" ]

/-- The formatter `OutputStream& operator<<(OutputStream& stream, NodeType& type)`:
`return stream << NAMES[static_cast<int>(type)];`. The argument `type` is the integer
`static_cast<int>(type)` held by the referenced object, which for an enumerator `k` is
`k.toInt`; a `NodeType` object can hold other integers as well. -/
def operatorShl (stream : OutputStream) (type : Int) : Outcome OutputStream :=
  match subscript NAMES type with
  | .ok name => .ok (stream ++ name)
  | .raised what => .raised what
  | .undefined => .undefined

/-- The spelling of an enumerator, as the spec lists the canonical names: each kind is
named by the literal spelt like its identifier. -/
def NodeType.spelling : NodeType → String
  | .Method => "Method"
  | .Package => "Package"
  | .Import => "Import"
  | .Type => "Type"
  | .Local => "Local"
  | .SingleValue => "SingleValue"
  | .Operation => "Operation"
  | .Error => "Error"
  | .Finish => "Finish"

/-! ## The node classes -/

/-- The macro `print(x)` of `Common.hpp`, `std::cout << x`, for a string literal `x`:
the console receives the characters of `x` and nothing more. -/
def print (cout : OutputStream) (x : String) : OutputStream :=
  cout ++ x

/-- The base class `Node`; its data member `type` holds the kind given at construction. -/
structure Node where
  type : NodeType
  deriving DecidableEq, Repr

/-- The constructor `Node::Node(NodeType type) : type(type) { }`. -/
def Node.new (type : NodeType) : Node :=
  Node.mk type

/-- The member `void Node::debug()`: `print("None");`. It receives the object and the
console and returns both. -/
def Node.debug (self : Node) (cout : OutputStream) : Node × OutputStream :=
  (self, print cout "None")

/-- The class `ErrorNode`, derived from `Node`, with no data member of its own. -/
structure ErrorNode extends Node
  deriving DecidableEq, Repr

/-- The constructor `ErrorNode::ErrorNode() : Node(NodeType::Error) { }`. -/
def ErrorNode.new : ErrorNode :=
  ErrorNode.mk (Node.new NodeType.Error)

/-- The member `void ErrorNode::debug()`: `print("Error");`. -/
def ErrorNode.debug (self : ErrorNode) (cout : OutputStream) : ErrorNode × OutputStream :=
  (self, print cout "Error")

/-- The class `FinishNode`, derived from `Node`, with no data member of its own. -/
structure FinishNode extends Node
  deriving DecidableEq, Repr

/-- The constructor `FinishNode::FinishNode() : Node(NodeType::Finish) { }`. -/
def FinishNode.new : FinishNode :=
  FinishNode.mk (Node.new NodeType.Finish)

/-- The member `void FinishNode::debug()`: `print("Finish");`. -/
def FinishNode.debug (self : FinishNode) (cout : OutputStream) : FinishNode × OutputStream :=
  (self, print cout "Finish")

/-- Modelled from the spec: the class declarations live in `Node.hpp`, which is not part of
the available source; the spec says that `ErrorNode` and `FinishNode` are `Node`s and that
rendering is a virtual operation. A node handled through the base class is therefore one of
three dynamic classes. -/
inductive Object where
  | base (node : Node)
  | error (node : ErrorNode)
  | finish (node : FinishNode)
  deriving DecidableEq, Repr

/-- The member `type` of a node seen through the base class. -/
def Object.type : Object → NodeType
  | .base node => node.type
  | .error node => node.type
  | .finish node => node.type

/-- Modelled from the spec: the virtual call `node->debug()` runs the `debug` of the dynamic
class of the object. -/
def Object.debug : Object → OutputStream → Object × OutputStream
  | .base node, cout => (Object.base (node.debug cout).1, (node.debug cout).2)
  | .error node, cout => (Object.error (node.debug cout).1, (node.debug cout).2)
  | .finish node, cout => (Object.finish (node.debug cout).1, (node.debug cout).2)

/-! ## The node-production protocol -/

/-- Modelled from the spec: the states of the node-production protocol; no consumer loop is
part of the available source. -/
inductive State where
  | Running
  | HaltedError
  | HaltedFinish
  deriving DecidableEq, Repr

/-- The status a consumer reports upward. -/
inductive Status where
  | success
  | failure
  deriving DecidableEq, Repr

/-- Modelled from the spec: the consumer of the node-production protocol. Besides the
protocol state it records the nodes it has processed and every node it has been handed by
the producer, both in order. -/
structure Consumer where
  state : State
  processed : List Object
  observed : List Object
  deriving DecidableEq, Repr

/-- Modelled from the spec: the initial state is `Running`, with nothing seen. -/
def Consumer.init : Consumer :=
  Consumer.mk State.Running [] []

/-- Modelled from the spec: the transition taken from `Running` on the node returned by the
producer. Kind `Error` leads to `HaltedError`, kind `Finish` to `HaltedFinish`; any other
node is processed and the consumer remains `Running`. -/
def Consumer.receive (c : Consumer) (node : Object) : Consumer :=
  match node.type with
  | .Error => Consumer.mk State.HaltedError c.processed (c.observed ++ [node])
  | .Finish => Consumer.mk State.HaltedFinish c.processed (c.observed ++ [node])
  | _ => Consumer.mk State.Running (c.processed ++ [node]) (c.observed ++ [node])

/-- Modelled from the spec: the consumer loop. The producer is the finite sequence of nodes
it has yet to return; a request removes its first node. While `Running` the consumer
requests the next node and takes the transition; both halted states are terminal, so no
request is made from them. The result is the final consumer and what the producer still
holds. -/
def Consumer.run : Consumer → List Object → Consumer × List Object
  | c, [] => (c, [])
  | c, node :: rest =>
    match c.state with
    | .Running => Consumer.run (c.receive node) rest
    | .HaltedError => (c, node :: rest)
    | .HaltedFinish => (c, node :: rest)

/-- Modelled from the spec: the status reported once halted; a consumer that is still
`Running` has nothing to report. -/
def Consumer.report (c : Consumer) : Option Status :=
  match c.state with
  | .Running => none
  | .HaltedError => some Status.failure
  | .HaltedFinish => some Status.success

/-- A sentinel is a node whose kind is `Error` or `Finish`. -/
def Object.isSentinel (node : Object) : Bool :=
  node.type = NodeType.Error || node.type = NodeType.Finish

/-- The first scenario of the spec: two nodes that are no sentinel, an `ErrorNode`, and one
more node after it. -/
def scenarioError : List Object :=
  [ Object.base (Node.new NodeType.Method), Object.base (Node.new NodeType.Local),
    Object.error ErrorNode.new, Object.base (Node.new NodeType.Operation) ]

/-- The second scenario of the spec: two nodes that are no sentinel, then a `FinishNode`. -/
def scenarioFinish : List Object :=
  [ Object.base (Node.new NodeType.Method), Object.base (Node.new NodeType.Local),
    Object.finish FinishNode.new ]

/-- The third scenario of the spec: a `FinishNode` alone. -/
def scenarioFinishOnly : List Object :=
  [ Object.finish FinishNode.new ]

/-! ## Auxiliary facts -/

/-- Appending to the same text is injective in the appended part. -/
theorem append_cancel_left (s a b : String) (h : s ++ a = s ++ b) : a = b := by
  have hdata := congrArg String.data h
  simp only [String.data_append] at hdata
  exact String.ext (List.append_cancel_left hdata)

/-- The list `NodeType.all` misses no enumerator. -/
theorem NodeType.mem_all (k : NodeType) : k ∈ NodeType.all := by
  cases k <;> decide

/-- On an enumerator the table lookup is in bounds and finds the spelling of the kind. -/
theorem subscript_enumerator (k : NodeType) :
    subscript NAMES k.toInt = Outcome.ok k.spelling := by
  cases k <;> rfl

/-- On an enumerator the formatter completes and appends the spelling of the kind. -/
theorem operatorShl_enumerator (stream : OutputStream) (k : NodeType) :
    operatorShl stream k.toInt = Outcome.ok (stream ++ k.spelling) := by
  simp only [operatorShl, subscript_enumerator]

/-- Distinct kinds are spelt differently. -/
theorem NodeType.spelling_injective (k1 k2 : NodeType)
    (h : k1.spelling = k2.spelling) : k1 = k2 := by
  cases k1 <;> cases k2 <;> first | rfl | exact absurd h (by decide)

/-- No kind is spelt `None`. -/
theorem NodeType.spelling_ne_none (k : NodeType) : k.spelling ≠ "None" := by
  cases k <;> decide

/-- An index outside `0..8` is outside the table. -/
theorem subscript_outside (type : Int) (h : type < 0 ∨ 8 < type) :
    subscript NAMES type = Outcome.undefined := by
  unfold subscript
  rcases h with h | h
  · rw [if_neg (by omega)]
  · rw [if_pos (by omega)]
    have hlen : NAMES.length ≤ type.toNat := by
      have : NAMES.length = 9 := rfl
      omega
    rw [List.get?_eq_none.mpr hlen]

/-- The table lookup never raises: it either finds an entry or is undefined. -/
theorem subscript_never_raises (type : Int) (what : String) :
    subscript NAMES type ≠ Outcome.raised what := by
  unfold subscript
  split
  · split <;> simp
  · simp

/-! ## The kind formatter: results -/

/-- C1: the nine kinds have the ordinals 0 to 8 in the order Method, Package, Import, Type,
Local, SingleValue, Operation, Error, Finish, and for every kind and every stream the
formatter completes with the stream contents followed by the literal spelt like the kind,
with nothing else added. -/
theorem operatorShl_appends_name :
    NodeType.all.map NodeType.toInt = [0, 1, 2, 3, 4, 5, 6, 7, 8] ∧
    NodeType.all.map NodeType.spelling =
      ["Method", "Package", "Import", "Type", "Local", "SingleValue", "Operation",
        "Error", "Finish"] ∧
    (∀ k : NodeType, k ∈ NodeType.all) ∧
    ∀ (stream : OutputStream) (k : NodeType),
      operatorShl stream k.toInt = Outcome.ok (stream ++ k.spelling) :=
  ⟨by decide, by decide, NodeType.mem_all, operatorShl_enumerator⟩

/-- C2: the kind-to-text mapping is injective: two kinds for which the formatter writes the
same name (the same result on the same stream) are the same kind. -/
theorem operatorShl_injective (stream : OutputStream) (k1 k2 : NodeType)
    (h : operatorShl stream k1.toInt = operatorShl stream k2.toInt) : k1 = k2 := by
  rw [operatorShl_enumerator, operatorShl_enumerator] at h
  exact NodeType.spelling_injective k1 k2 (append_cancel_left stream _ _ (Outcome.ok.inj h))

/-- Witness of C2 at the kind `Finish` on an empty stream. -/
theorem operatorShl_injective_witness :
    operatorShl "" NodeType.Finish.toInt = operatorShl "" NodeType.Finish.toInt ∧
      NodeType.Finish = NodeType.Finish :=
  ⟨rfl, operatorShl_injective "" NodeType.Finish NodeType.Finish rfl⟩

/-- C3 as stated fails: it is not the case that every tag outside 0..8 makes the formatter
raise a defined error; for the tag 9 on an empty stream the lookup reads outside the table
and the outcome is undefined behaviour, not a raised error. -/
theorem operatorShl_raises_refuted :
    operatorShl "" 9 = Outcome.undefined ∧
    ¬ ∀ (stream : OutputStream) (type : Int), type < 0 ∨ 8 < type →
        ∃ what, operatorShl stream type = Outcome.raised what := by
  refine ⟨by decide, fun h => ?_⟩
  obtain ⟨what, hw⟩ := h "" 9 (by decide)
  have hu : operatorShl "" 9 = Outcome.undefined := by decide
  rw [hu] at hw
  exact Outcome.noConfusion hw

/-- C3 amended: for every tag outside 0..8 the formatter performs an unchecked subscript
into the nine-entry name table, so the read is outside the table and the outcome is
undefined behaviour; no defined error is raised and nothing is written. -/
theorem operatorShl_outside_undefined (stream : OutputStream) (type : Int)
    (h : type < 0 ∨ 8 < type) :
    subscript NAMES type = Outcome.undefined ∧
    operatorShl stream type = Outcome.undefined ∧
    (∀ what, operatorShl stream type ≠ Outcome.raised what) ∧
    (∀ out, operatorShl stream type ≠ Outcome.ok out) := by
  have hs := subscript_outside type h
  have ho : operatorShl stream type = Outcome.undefined := by
    simp only [operatorShl, hs]
  refine ⟨hs, ho, ?_, ?_⟩
  · intro what hw
    rw [ho] at hw
    exact Outcome.noConfusion hw
  · intro out hw
    rw [ho] at hw
    exact Outcome.noConfusion hw

/-- Witness of the amended C3 at the tag `-1` on the stream holding `ab`. -/
theorem operatorShl_outside_undefined_witness :
    ((-1 : Int) < 0 ∨ 8 < (-1 : Int)) ∧
    subscript NAMES (-1) = Outcome.undefined ∧
    operatorShl "ab" (-1) = Outcome.undefined ∧
    (∀ what, operatorShl "ab" (-1) ≠ Outcome.raised what) ∧
    (∀ out, operatorShl "ab" (-1) ≠ Outcome.ok out) :=
  ⟨by decide, operatorShl_outside_undefined "ab" (-1) (by decide)⟩

/-! ## Construction and rendering: results -/

/-- C4: zero-argument construction of an `ErrorNode` yields a node whose `type` is `Error`:
the base part is the one `Node(NodeType::Error)` builds, also when the node is seen through
the base class, and every one of any number of constructions gives this same node. -/
theorem ErrorNode_new_type :
    ErrorNode.new.toNode = Node.new NodeType.Error ∧
    ErrorNode.new.type = NodeType.Error ∧
    (Object.error ErrorNode.new).type = NodeType.Error ∧
    ∀ count : Nat, (List.replicate count ErrorNode.new).map (fun e => e.type) =
      List.replicate count NodeType.Error :=
  ⟨rfl, rfl, rfl, fun count => by simp [ErrorNode.new, Node.new]⟩

/-- C5: zero-argument construction of a `FinishNode` yields a node whose `type` is
`Finish`: the base part is the one `Node(NodeType::Finish)` builds, also when the node is
seen through the base class, and every one of any number of constructions gives this same
node. -/
theorem FinishNode_new_type :
    FinishNode.new.toNode = Node.new NodeType.Finish ∧
    FinishNode.new.type = NodeType.Finish ∧
    (Object.finish FinishNode.new).type = NodeType.Finish ∧
    ∀ count : Nat, (List.replicate count FinishNode.new).map (fun f => f.type) =
      List.replicate count NodeType.Finish :=
  ⟨rfl, rfl, rfl, fun count => by simp [FinishNode.new, Node.new]⟩

/-- C6: for every content of the console, `debug` on an `ErrorNode` appends exactly the
literal `Error` and `debug` on a `FinishNode` appends exactly the literal `Finish`, called
directly or through the base class; a second call appends the same literal again. -/
theorem sentinel_debug_text (e : ErrorNode) (f : FinishNode) (cout : OutputStream) :
    (e.debug cout).2 = cout ++ "Error" ∧
    (f.debug cout).2 = cout ++ "Finish" ∧
    ((Object.error e).debug cout).2 = cout ++ "Error" ∧
    ((Object.finish f).debug cout).2 = cout ++ "Finish" ∧
    (e.debug (e.debug cout).2).2 = (cout ++ "Error") ++ "Error" ∧
    (f.debug (f.debug cout).2).2 = (cout ++ "Finish") ++ "Finish" :=
  ⟨rfl, rfl, rfl, rfl, rfl, rfl⟩

/-- C7: for every kind `k` and every content of the console, `debug` on a base `Node`
constructed with kind `k` appends exactly the literal `None`, called directly or through
the base class. -/
theorem Node_debug_text (k : NodeType) (cout : OutputStream) :
    ((Node.new k).debug cout).2 = cout ++ "None" ∧
    ((Object.base (Node.new k)).debug cout).2 = cout ++ "None" :=
  ⟨rfl, rfl⟩

/-- C8: rendering does not mutate the node: after `debug` the object is the one it was
before, for a base `Node`, an `ErrorNode` and a `FinishNode`, so its kind is still the kind
it was constructed with; only the console differs. -/
theorem debug_preserves_node (cout : OutputStream) :
    (∀ node : Object, (node.debug cout).1 = node ∧ (node.debug cout).1.type = node.type) ∧
    (∀ k : NodeType, ((Node.new k).debug cout).1 = Node.new k ∧
      ((Object.base (Node.new k)).debug cout).1.type = k) ∧
    (ErrorNode.new.debug cout).1 = ErrorNode.new ∧
    ((Object.error ErrorNode.new).debug cout).1.type = NodeType.Error ∧
    (FinishNode.new.debug cout).1 = FinishNode.new ∧
    ((Object.finish FinishNode.new).debug cout).1.type = NodeType.Finish := by
  refine ⟨fun node => ?_, fun k => ⟨rfl, rfl⟩, rfl, rfl, rfl, rfl⟩
  cases node <;> exact ⟨rfl, rfl⟩

/-- C10: for each sentinel node the text its `debug` writes is the text the kind formatter
writes for the node's own kind, on every console content; the text `None` written by the
base `debug` is not an entry of the name table, and for no kind does the formatter write
what the base `debug` writes. -/
theorem debug_agrees_with_formatter :
    (∀ cout : OutputStream,
      operatorShl cout ErrorNode.new.type.toInt = Outcome.ok (ErrorNode.new.debug cout).2) ∧
    (∀ cout : OutputStream,
      operatorShl cout FinishNode.new.type.toInt = Outcome.ok (FinishNode.new.debug cout).2) ∧
    "None" ∉ NAMES ∧
    (∀ k : NodeType, subscript NAMES k.toInt ≠ Outcome.ok "None") ∧
    ∀ (k kind : NodeType) (cout : OutputStream),
      operatorShl cout k.toInt ≠ Outcome.ok ((Node.new kind).debug cout).2 := by
  refine ⟨fun cout => rfl, fun cout => rfl, by decide, fun k h => ?_, fun k kind cout h => ?_⟩
  · rw [subscript_enumerator] at h
    exact NodeType.spelling_ne_none k (Outcome.ok.inj h)
  · rw [operatorShl_enumerator] at h
    exact NodeType.spelling_ne_none k (append_cancel_left cout _ _ (Outcome.ok.inj h))

/-! ## The node-production protocol: results -/

/-- A node that is no sentinel is processed and leaves the consumer `Running`. -/
theorem Consumer.receive_of_not_sentinel (c : Consumer) (node : Object)
    (h : node.isSentinel = false) :
    c.receive node =
      Consumer.mk State.Running (c.processed ++ [node]) (c.observed ++ [node]) := by
  unfold Consumer.receive
  unfold Object.isSentinel at h
  cases hk : node.type <;> simp_all

/-- A sentinel halts the consumer without being processed. -/
theorem Consumer.receive_of_sentinel (c : Consumer) (node : Object)
    (h : node.isSentinel = true) :
    c.receive node =
      Consumer.mk (if node.type = NodeType.Error then State.HaltedError
        else State.HaltedFinish) c.processed (c.observed ++ [node]) := by
  unfold Consumer.receive
  unfold Object.isSentinel at h
  cases hk : node.type <;> simp_all

/-- A halted consumer makes no request: the producer keeps all it holds. -/
theorem Consumer.run_of_halted (c : Consumer) (rest : List Object)
    (h : c.state ≠ State.Running) : Consumer.run c rest = (c, rest) := by
  cases rest with
  | nil => rfl
  | cons node rest =>
    unfold Consumer.run
    cases hs : c.state <;> simp_all

/-- A `Running` consumer works through a run of nodes without sentinel, processing each. -/
theorem Consumer.run_prefix (pre : List Object)
    (hpre : ∀ node ∈ pre, node.isSentinel = false) (c : Consumer)
    (hc : c.state = State.Running) (rest : List Object) :
    Consumer.run c (pre ++ rest) =
      Consumer.run (Consumer.mk State.Running (c.processed ++ pre) (c.observed ++ pre))
        rest := by
  induction pre generalizing c with
  | nil =>
    cases c
    simp_all
  | cons node pre ih =>
    have hnode := hpre node (List.mem_cons_self node pre)
    have htail : ∀ n ∈ pre, n.isSentinel = false :=
      fun n hn => hpre n (List.mem_cons_of_mem node hn)
    rw [List.cons_append, Consumer.run, hc]
    simp only
    rw [Consumer.receive_of_not_sentinel c node hnode, ih htail _ rfl]
    simp

/-- A sequence holding a sentinel splits at its first sentinel. -/
theorem split_at_first_sentinel (nodes : List Object)
    (h : ∃ node ∈ nodes, node.isSentinel = true) :
    ∃ pre s post, nodes = pre ++ s :: post ∧
      (∀ node ∈ pre, node.isSentinel = false) ∧ s.isSentinel = true := by
  induction nodes with
  | nil =>
    obtain ⟨node, hmem, _⟩ := h
    cases hmem
  | cons first rest ih =>
    cases hfirst : first.isSentinel with
    | true =>
      refine ⟨[], first, rest, rfl, ?_, hfirst⟩
      intro node hmem
      exact absurd hmem (List.not_mem_nil node)
    | false =>
      have hrest : ∃ node ∈ rest, node.isSentinel = true := by
        obtain ⟨node, hmem, hsent⟩ := h
        rcases List.mem_cons.mp hmem with heq | hin
        · rw [heq, hfirst] at hsent
          cases hsent
        · exact ⟨node, hin, hsent⟩
      obtain ⟨pre, s, post, hsplit, hpre, hs⟩ := ih hrest
      refine ⟨first :: pre, s, post, by rw [hsplit, List.cons_append], ?_, hs⟩
      intro node hmem
      rcases List.mem_cons.mp hmem with heq | hin
      · rw [heq]
        exact hfirst
      · exact hpre node hin

/-- The consumer loop on a run of nodes without sentinel followed by a sentinel. -/
theorem Consumer.run_to_sentinel (pre : List Object) (s : Object) (post : List Object)
    (hpre : ∀ node ∈ pre, node.isSentinel = false) (hs : s.isSentinel = true) :
    Consumer.run Consumer.init (pre ++ s :: post) =
      (Consumer.mk (if s.type = NodeType.Error then State.HaltedError
        else State.HaltedFinish) pre (pre ++ [s]), post) := by
  rw [Consumer.run_prefix pre hpre Consumer.init rfl, Consumer.run]
  simp only [Consumer.init, List.nil_append]
  rw [Consumer.receive_of_sentinel _ s hs]
  apply Consumer.run_of_halted
  simp only
  split <;> simp

/-- C9: on every finite sequence of nodes holding a sentinel, the consumer loop splits the
sequence at its first node of kind `Error` or `Finish`: it processes exactly the nodes
before it, in order, observes those and the sentinel and nothing later (the producer keeps
the rest, and the outcome is the same whatever follows the sentinel), halts, and reports
failure when that sentinel has kind `Error` and success when it has kind `Finish`. -/
theorem consumer_halts_at_first_sentinel (nodes : List Object)
    (h : ∃ node ∈ nodes, node.isSentinel = true) :
    ∃ pre s post, nodes = pre ++ s :: post ∧
      (∀ node ∈ pre, node.isSentinel = false) ∧ s.isSentinel = true ∧
      Consumer.run Consumer.init nodes =
        (Consumer.mk (if s.type = NodeType.Error then State.HaltedError
          else State.HaltedFinish) pre (pre ++ [s]), post) ∧
      (Consumer.run Consumer.init nodes).1.report =
        some (if s.type = NodeType.Error then Status.failure else Status.success) ∧
      ∀ later : List Object,
        (Consumer.run Consumer.init (pre ++ s :: later)).1 =
          (Consumer.run Consumer.init nodes).1 := by
  obtain ⟨pre, s, post, hsplit, hpre, hs⟩ := split_at_first_sentinel nodes h
  refine ⟨pre, s, post, hsplit, hpre, hs, ?_, ?_, ?_⟩
  · rw [hsplit]
    exact Consumer.run_to_sentinel pre s post hpre hs
  · rw [hsplit, Consumer.run_to_sentinel pre s post hpre hs]
    by_cases hk : s.type = NodeType.Error
    · simp only [if_pos hk, Consumer.report]
    · simp only [if_neg hk, Consumer.report]
  · intro later
    rw [hsplit, Consumer.run_to_sentinel pre s post hpre hs,
      Consumer.run_to_sentinel pre s later hpre hs]

/-- Witness of C9 on the first scenario of the spec. -/
theorem consumer_halts_at_first_sentinel_witness :
    (∃ node ∈ scenarioError, node.isSentinel = true) ∧
    ∃ pre s post, scenarioError = pre ++ s :: post ∧
      (∀ node ∈ pre, node.isSentinel = false) ∧ s.isSentinel = true ∧
      Consumer.run Consumer.init scenarioError =
        (Consumer.mk (if s.type = NodeType.Error then State.HaltedError
          else State.HaltedFinish) pre (pre ++ [s]), post) ∧
      (Consumer.run Consumer.init scenarioError).1.report =
        some (if s.type = NodeType.Error then Status.failure else Status.success) ∧
      ∀ later : List Object,
        (Consumer.run Consumer.init (pre ++ s :: later)).1 =
          (Consumer.run Consumer.init scenarioError).1 :=
  ⟨⟨Object.error ErrorNode.new, by decide, by decide⟩,
    consumer_halts_at_first_sentinel scenarioError
      ⟨Object.error ErrorNode.new, by decide, by decide⟩⟩

/-- The three scenarios of the spec, evaluated: the first processes its two leading nodes,
halts on the `ErrorNode` with failure and leaves the last node with the producer; the
second processes its two leading nodes and halts on the `FinishNode` with success; the
third processes nothing and halts with success. -/
theorem consumer_scenarios :
    Consumer.run Consumer.init scenarioError =
      (Consumer.mk State.HaltedError (scenarioError.take 2) (scenarioError.take 3),
        scenarioError.drop 3) ∧
    (Consumer.run Consumer.init scenarioError).1.report = some Status.failure ∧
    Consumer.run Consumer.init scenarioFinish =
      (Consumer.mk State.HaltedFinish (scenarioFinish.take 2) scenarioFinish, []) ∧
    (Consumer.run Consumer.init scenarioFinish).1.report = some Status.success ∧
    Consumer.run Consumer.init scenarioFinishOnly =
      (Consumer.mk State.HaltedFinish [] scenarioFinishOnly, []) ∧
    (Consumer.run Consumer.init scenarioFinishOnly).1.report = some Status.success := by
  decide

end Compiler
